import Mathlib

/-!
Verification development for the data pipeline of the keyword-taxonomy visualizer
(files `7.4.csvExportUtils.js`, `7.1. dataProcessingUtils.js`,
`7.2. filterSortUtils.js`, `1. constants.js`, `2. helpers.js`).

Shallow embedding conventions:
- JavaScript numbers are modelled as `ℚ` (no NaN values are modelled for data
  fields; where the code probes `parseFloat`/`isNaN` the possible outcomes are
  modelled explicitly, see `JsValue` and `NumInput`).
- A possibly-absent (`undefined`/`null`) field is an `Option`.  The JS idiom
  `x || 0` on a numeric field is `Option.getD 0` (for a present number `q`,
  `q || 0` is `q` when `q ≠ 0` and `0` when `q = 0`, which coincides with `q`).
- A possibly-absent array field is `Option (List _)`; an absent `children`
  array is modelled as `[]`, since every function of the pipeline treats an
  absent `children` exactly like an empty one (`node.children || []`,
  `Array.isArray` guards followed by iteration).
- Keyword entries failing the `typeof kw.keyword === "string"` guard are
  dropped identically by every function that reads keyword lists, so keyword
  names are modelled as plain `String`.
- JS string falsiness (`!s`) is emptiness of the `String`.
-/

/-- Metadata record carried by some nodes (`centroid_keywords`,
`tfidf_keywords` are the only fields the pipeline reads). -/
structure Metadata where
  centroid_keywords : Option String
  tfidf_keywords : Option String
  deriving Repr, DecidableEq

/-- A keyword entry of a cluster (`keyword`, `searchVolume`,
`keywordDifficulty`, `cpc`). -/
structure Keyword where
  keyword : String
  searchVolume : Option ℚ
  keywordDifficulty : Option ℚ
  cpc : Option ℚ
  deriving Repr, DecidableEq

/-- The scalar fields of a tree node; `type` is the string tag
(see `NodeType`). -/
structure NodeData where
  name : String
  type : String
  size : Option ℚ
  totalKeywords : Option ℚ
  totalClusters : Option ℚ
  averageKD : Option ℚ
  averageCPC : Option ℚ
  metadata : Option Metadata
  keywords : Option (List Keyword)
  deriving Repr, DecidableEq

/-- A node of the (raw or canonical) hierarchical tree: scalar data plus an
ordered list of children. -/
inductive Node : Type where
  | mk (data : NodeData) (children : List Node)

def Node.dataOf : Node → NodeData
  | .mk d _ => d

def Node.childrenOf : Node → List Node
  | .mk _ cs => cs

/-- The `NodeType` constants object of `1. constants.js`. -/
def NodeType.PILLAR : String := "pillar"

def NodeType.PARENT : String := "parent"

def NodeType.SUBTOPIC : String := "subtopic"

def NodeType.CLUSTER : String := "cluster"

def NodeType.KEYWORDS : String := "keywords"

/-- A denormalized flat record (`commonNodeData` / keyword entries of
`extractAllNodesAndKeywords`, and the rows consumed by
`filterFlatListByType_internal`).  The session-unique random `id` is omitted:
no pipeline function reads it. -/
structure FlatRecord where
  name : String
  type : String
  searchVolume : Option ℚ
  keywordDifficulty : Option ℚ
  cpc : Option ℚ
  totalKeywords : Option ℚ
  totalClusters : Option ℚ
  fullHierarchyPath : Option String
  metadata : Option Metadata
  deriving Repr, DecidableEq

/-- The string content of a custom-bound input box: empty, non-numeric
(`parseFloat` yields NaN), or a parsed number. -/
inductive NumInput : Type where
  | empty
  | nonNumeric
  | num (q : ℚ)
  deriving Repr, DecidableEq

/-- One range-filter setting (e.g. `filters.searchVolume`). -/
structure FilterSetting where
  currentSelection : String
  customMin : NumInput
  customMax : NumInput
  deriving Repr, DecidableEq

/-- A named range of a range collection (`{min, max}`, each possibly null). -/
structure RangeDef where
  min : Option ℚ
  max : Option ℚ
  deriving Repr, DecidableEq

/-- A range collection (`SEARCH_VOLUME_RANGES` etc.): lookup by key, absent
keys yield `none`. -/
abbrev RangeColl := String → Option RangeDef

/-- The value argument of `checkRangeSelectionFilter_internal` after
`parseFloat`: either NaN or a rational. -/
inductive JsValue : Type where
  | nan
  | num (q : ℚ)
  deriving Repr, DecidableEq

/-- The filter state consumed by the tree/flat filters (`nodeTypes` is the
JS object lookup `filters.nodeTypes[tag]`, absent tags being falsy). -/
structure Filters where
  nodeTypes : String → Bool
  searchVolume : FilterSetting
  keywordDifficulty : FilterSetting
  averageCPC : FilterSetting

/-- A parsed search term: lowercased text plus the quoted/exact flag. -/
structure SearchTerm where
  value : String
  isExact : Bool
  deriving Repr, DecidableEq

/-! ## String and regex helpers -/

/-- Lowercasing as used by `toLowerCase()` on the ASCII data of this app
(written on the character list so that it evaluates by kernel reduction). -/
def strLower (s : String) : String := ⟨s.data.map Char.toLower⟩

/-- `s.trim()`: strip leading and trailing whitespace. -/
def strTrim (s : String) : String :=
  ⟨((s.data.dropWhile Char.isWhitespace).reverse.dropWhile Char.isWhitespace).reverse⟩

/-- `haystack.includes(needle)` on character lists: does `needle` occur as a
contiguous substring of `haystack`? -/
def containsSub (needle : List Char) : List Char → Bool
  | [] => needle.isEmpty
  | c :: rest => needle.isPrefixOf (c :: rest) || containsSub needle rest

/-- `excludedKeywords.some(ex => lower.includes(ex))` after
`name.trim().toLowerCase()`; a falsy (empty) name is never excluded. -/
def isExcluded (excludedKeywords : List String) (name : String) : Bool :=
  if name = "" then false
  else
    let lower := strLower (strTrim name)
    excludedKeywords.any fun ex => containsSub ex.data lower.data

/-- Word character of the JS regex `\b` assertion: `[A-Za-z0-9_]`. -/
def isWordChar (c : Char) : Bool := c.isAlphanum || c = '_'

/-- A `\b` boundary holds between two (possibly absent) characters iff their
word-character statuses differ; outside the string counts as non-word. -/
def wordBoundary (before after : Option Char) : Bool :=
  (match before with | some c => isWordChar c | none => false)
    != (match after with | some c => isWordChar c | none => false)

def headChar : List Char → Option Char
  | [] => none
  | c :: _ => some c

/-- Does `\b<pat>\b` (with `pat` literal, thanks to `escapeRegExp`) match the
text `s` exactly at the current position, `prev` being the character just
before that position? -/
def matchHere (pat s : List Char) (prev : Option Char) : Bool :=
  match pat with
  | [] => wordBoundary prev (headChar s)
  | _ =>
    pat.isPrefixOf s && wordBoundary prev (headChar pat)
      && wordBoundary pat.getLast? (headChar (s.drop pat.length))

/-- Scan of `s` for a `\b<pat>\b` match starting at or after the position
whose preceding character is `prev`. -/
def testWBFrom (pat : List Char) : Option Char → List Char → Bool
  | prev, [] => matchHere pat [] prev
  | prev, c :: rest => matchHere pat (c :: rest) prev || testWBFrom pat (some c) rest

/-- `new RegExp(bb + escapeRegExp(pat) + bb, flagI).test(s)` (with `bb` the
regex word-boundary assertion and `flagI` the ignore-case flag) where both
`pat` and `s` are already lowercase (the call sites lowercase both sides, so
the `i` flag is inert). -/
def testWB (pat s : String) : Bool := testWBFrom pat.data none s.data

/-! ## RangeMatcher (`checkRangeSelectionFilter_internal`) -/

/-- `customMin === emptyString ? null : parseFloat(customMin)` followed by the
`!isNaN(bound)` guard: an empty input is a null bound and a non-numeric input
is a NaN bound, and both are skipped by the comparison guards, so both map to
`none` (no constraint). -/
def customBound : NumInput → Option ℚ
  | .empty => none
  | .nonNumeric => none
  | .num q => some q

/-- The pair of comparison guards ending
`checkRangeSelectionFilter_internal`: fail on a defined lower bound strictly
above the value or a defined upper bound strictly below it. -/
def boundsPass (val : ℚ) (minBound maxBound : Option ℚ) : Bool :=
  if (match minBound with | some m => decide (val < m) | none => false) then false
  else if (match maxBound with | some m => decide (val > m) | none => false) then false
  else true

/-- `checkRangeSelectionFilter_internal(value, filterSetting,
rangeCollection)` of `7.2.filterSortUtils.js`. -/
def checkRangeSelectionFilter (value : JsValue) (filterSetting : FilterSetting)
    (rangeCollection : RangeColl) : Bool :=
  match value with
  | .nan => true
  | .num val =>
    if filterSetting.currentSelection = "any" ∨ filterSetting.currentSelection = "" then
      true
    else if filterSetting.currentSelection = "custom" then
      boundsPass val (customBound filterSetting.customMin) (customBound filterSetting.customMax)
    else
      match rangeCollection filterSetting.currentSelection with
      | some range => boundsPass val range.min range.max
      | none => true

/-- The bounds the filter setting resolves to: custom bounds for `"custom"`,
the bounds of the named range when the key is present, no bounds otherwise. -/
def resolvedBounds (filterSetting : FilterSetting) (rangeCollection : RangeColl) :
    Option ℚ × Option ℚ :=
  if filterSetting.currentSelection = "custom" then
    (customBound filterSetting.customMin, customBound filterSetting.customMax)
  else
    match rangeCollection filterSetting.currentSelection with
    | some range => (range.min, range.max)
    | none => (none, none)

/-! ## TreeFilter (`filterHierarchicalTreeRecursive_internal`) -/

/-- The non-list arguments of `filterHierarchicalTreeRecursive_internal`,
bundled: filter state, search terms, the `applyFiltersToNodeNames` flag, the
injected range-check function, the three range collections, and the exclusion
list. -/
structure TreeFilterCtx where
  filters : Filters
  searchTermsArray : List SearchTerm
  applyFiltersToNodeNames : Bool
  checkRangeFunc : JsValue → FilterSetting → RangeColl → Bool
  svRanges : RangeColl
  kdRanges : RangeColl
  cpcRanges : RangeColl
  excludedKeywords : List String

/-- The numeric part of the node-level check: when
`applyFiltersToNodeNames` is set, the `size`, `averageKD` and
`averageCPC` (defaulted by `|| 0`) must each pass their range filter. -/
def nodePassesNumerics (ctx : TreeFilterCtx) (d : NodeData) : Bool :=
  if ctx.applyFiltersToNodeNames then
    ctx.checkRangeFunc (.num (d.size.getD 0)) ctx.filters.searchVolume ctx.svRanges
      && ctx.checkRangeFunc (.num (d.averageKD.getD 0)) ctx.filters.keywordDifficulty ctx.kdRanges
      && ctx.checkRangeFunc (.num (d.averageCPC.getD 0)) ctx.filters.averageCPC ctx.cpcRanges
  else true

/-- One search term tested against the three lowercased node texts (name,
`metadata.centroid_keywords`, `metadata.tfidf_keywords`): full equality for
exact terms, word-boundary regex test otherwise. -/
def nodeTermMatch (t : SearchTerm) (nameLower centroidLower tfidfLower : String) : Bool :=
  if t.isExact then
    nameLower = t.value ∨ centroidLower = t.value ∨ tfidfLower = t.value
  else
    testWB t.value nameLower || testWB t.value centroidLower || testWB t.value tfidfLower

/-- The search part of the node-level check (`passesSearch`): skipped unless
`applyFiltersToNodeNames` holds and some terms are present; otherwise any
term may match. -/
def nodePassesSearch (ctx : TreeFilterCtx) (d : NodeData) : Bool :=
  if ctx.applyFiltersToNodeNames ∧ ctx.searchTermsArray ≠ [] then
    let nameLower := if d.name = "" then "" else strLower d.name
    let centroidLower :=
      match d.metadata with
      | some m => match m.centroid_keywords with
                  | some s => if s = "" then "" else strLower s
                  | none => ""
      | none => ""
    let tfidfLower :=
      match d.metadata with
      | some m => match m.tfidf_keywords with
                  | some s => if s = "" then "" else strLower s
                  | none => ""
      | none => ""
    ctx.searchTermsArray.any fun t => nodeTermMatch t nameLower centroidLower tfidfLower
  else true

/-- The per-keyword predicate used to filter the `keywords` array of a cluster:
not exclusion-blocked, matched by some search term (when terms are present),
and passing the three numeric range filters on its own metrics. -/
def clusterKeywordPred (ctx : TreeFilterCtx) (kw : Keyword) : Bool :=
  if isExcluded ctx.excludedKeywords kw.keyword then false
  else
    let kwTextLower := strLower kw.keyword
    let kwSearchMatch :=
      if ctx.searchTermsArray ≠ [] then
        ctx.searchTermsArray.any fun t =>
          if t.isExact then kwTextLower = t.value else testWB t.value kwTextLower
      else true
    let kwNumericMatch :=
      ctx.checkRangeFunc (.num (kw.searchVolume.getD 0)) ctx.filters.searchVolume ctx.svRanges
        && ctx.checkRangeFunc (.num (kw.keywordDifficulty.getD 0)) ctx.filters.keywordDifficulty ctx.kdRanges
        && ctx.checkRangeFunc (.num (kw.cpc.getD 0)) ctx.filters.averageCPC ctx.cpcRanges
    kwSearchMatch && kwNumericMatch

/-- `filteredKeywords` for one node: for a Cluster with a keywords array and
the Keywords type toggled on, the survivors of `clusterKeywordPred`; in every
other case the empty list. -/
def filteredKeywordsOf (ctx : TreeFilterCtx) (d : NodeData) : List Keyword :=
  match d.keywords with
  | some kws =>
    if d.type = NodeType.CLUSTER then
      if ctx.filters.nodeTypes NodeType.KEYWORDS ∧ kws ≠ [] then
        kws.filter (clusterKeywordPred ctx)
      else []
    else []
  | none => []

/-- `filterHierarchicalTreeRecursive_internal` of `7.2.filterSortUtils.js`:
post-order recursive filter of a node list.  A node whose name is
exclusion-blocked is skipped (with its whole subtree) when
`applyFiltersToNodeNames` is set; otherwise it is kept iff it has a surviving
child, or its type is toggled on and it passes the content checks, or it is a
Cluster with the Keywords type on and a surviving keyword.  Kept nodes are
returned as copies carrying the filtered children and keywords. -/
def filterHierarchicalTreeRecursive_internal (ctx : TreeFilterCtx) :
    List Node → List Node
  | [] => []
  | Node.mk d cs :: rest =>
    if ctx.applyFiltersToNodeNames && isExcluded ctx.excludedKeywords d.name then
      filterHierarchicalTreeRecursive_internal ctx rest
    else
      let visibleChildren := filterHierarchicalTreeRecursive_internal ctx cs
      let isNodeTypeSelected := ctx.filters.nodeTypes d.type
      let selfMatchesContentFilters := nodePassesNumerics ctx d && nodePassesSearch ctx d
      let filteredKeywords := filteredKeywordsOf ctx d
      let includeNode :=
        if !visibleChildren.isEmpty then true
        else if isNodeTypeSelected && selfMatchesContentFilters then true
        else d.type = NodeType.CLUSTER && ctx.filters.nodeTypes NodeType.KEYWORDS
              && !filteredKeywords.isEmpty
      (if includeNode then
        [Node.mk { d with keywords := some filteredKeywords } visibleChildren]
       else [])
        ++ filterHierarchicalTreeRecursive_internal ctx rest

/-- The wrapper `filterHierarchicalTreeRecursive`: the internal filter with
`checkRangeSelectionFilter_internal` injected. -/
def filterHierarchicalTreeRecursive (filters : Filters)
    (searchTermsArray : List SearchTerm) (applyFiltersToNodeNames : Bool)
    (svRanges kdRanges cpcRanges : RangeColl) (excludedKeywords : List String)
    (nodesToFilter : List Node) : List Node :=
  filterHierarchicalTreeRecursive_internal
    { filters := filters
      searchTermsArray := searchTermsArray
      applyFiltersToNodeNames := applyFiltersToNodeNames
      checkRangeFunc := checkRangeSelectionFilter
      svRanges := svRanges
      kdRanges := kdRanges
      cpcRanges := cpcRanges
      excludedKeywords := excludedKeywords }
    nodesToFilter

/-! ## FlatFilter (`filterFlatListByType_internal`) -/

/-- `s.startsWith(pre)` of JS, on the character lists of the strings. -/
def strStartsWith (s pre : String) : Bool := pre.data.isPrefixOf s.data

/-- Stage 1 of the flat filter (pillar scoping): with a specific pillar
selected, a record without a (truthy) path string survives only as a
Pillar-typed record named like the pillar, a Pillar-typed record survives iff
its name equals the pillar, and any other record survives iff its path starts
with `"<pillar> > "`. -/
def pillarScopePred (selectedPillar : String) (item : FlatRecord) : Bool :=
  match item.fullHierarchyPath with
  | none => item.type = NodeType.PILLAR && item.name = selectedPillar
  | some path =>
    if path = "" then item.type = NodeType.PILLAR && item.name = selectedPillar
    else if item.type = NodeType.PILLAR then item.name = selectedPillar
    else strStartsWith path (selectedPillar ++ " > ")

/-- Stage 2 predicate: the three metrics of the record (defaulted by `|| 0`) each
pass their range filter. -/
def flatNumericPred (rangeCheckFunc : JsValue → FilterSetting → RangeColl → Bool)
    (filters : Filters) (svRanges kdRanges cpcRanges : RangeColl)
    (item : FlatRecord) : Bool :=
  rangeCheckFunc (.num (item.searchVolume.getD 0)) filters.searchVolume svRanges
    && rangeCheckFunc (.num (item.keywordDifficulty.getD 0)) filters.keywordDifficulty kdRanges
    && rangeCheckFunc (.num (item.cpc.getD 0)) filters.averageCPC cpcRanges

/-- Stage 4 predicate: some term matches the lowercased record name; when
that fails, non-Keyword records with metadata are also matched against the
lowercased metadata keyword strings. -/
def flatSearchPred (searchTermsArray : List SearchTerm) (singleSelectedType : String)
    (item : FlatRecord) : Bool :=
  let itemNameLower := if item.name = "" then "" else strLower item.name
  let passesSearch := searchTermsArray.any fun t =>
    if t.isExact then itemNameLower = t.value else testWB t.value itemNameLower
  if !passesSearch ∧ singleSelectedType ≠ NodeType.KEYWORDS ∧ item.metadata.isSome then
    let centroidLower :=
      match item.metadata with
      | some m => match m.centroid_keywords with
                  | some s => if s = "" then "" else strLower s
                  | none => ""
      | none => ""
    let tfidfLower :=
      match item.metadata with
      | some m => match m.tfidf_keywords with
                  | some s => if s = "" then "" else strLower s
                  | none => ""
      | none => ""
    searchTermsArray.any fun t =>
      if t.isExact then centroidLower = t.value ∨ tfidfLower = t.value
      else testWB t.value centroidLower || testWB t.value tfidfLower
  else passesSearch

/-- `filterFlatListByType_internal` of `7.2.filterSortUtils.js`: pillar
scoping, then numeric range filtering, then exclusion, then search, each
stage narrowing the previous one. -/
def filterFlatListByType_internal (sourceList : List FlatRecord) (filters : Filters)
    (selectedPillar : String) (searchTermsArray : List SearchTerm)
    (singleSelectedType : String)
    (rangeCheckFunc : JsValue → FilterSetting → RangeColl → Bool)
    (svRanges kdRanges cpcRanges : RangeColl)
    (excludedKeywords : List String) : List FlatRecord :=
  let pillarFilteredList :=
    if selectedPillar ≠ "all" ∧ selectedPillar ≠ "" then
      sourceList.filter (pillarScopePred selectedPillar)
    else sourceList
  let numericFilteredList :=
    pillarFilteredList.filter (flatNumericPred rangeCheckFunc filters svRanges kdRanges cpcRanges)
  let exclusionFilteredList :=
    numericFilteredList.filter fun item => !isExcluded excludedKeywords item.name
  if searchTermsArray ≠ [] then
    exclusionFilteredList.filter (flatSearchPred searchTermsArray singleSelectedType)
  else exclusionFilteredList

/-! ## TreeNormalizer (`transformNodeForHierarchicalView`,
`extractAllNodesAndKeywords`, `processRawDataFromFile`) -/

/-- The keyword filter of `transformNodeForHierarchicalView`: keep a keyword
iff its string is not in the seen-set, adding kept strings to the set (the JS
mutable `Set` is threaded as an explicit accumulator). -/
def dedupKeywords : List Keyword → List String → List Keyword × List String
  | [], seen => ([], seen)
  | kw :: rest, seen =>
    if kw.keyword ∈ seen then dedupKeywords rest seen
    else
      let (kept, seen1) := dedupKeywords rest (kw.keyword :: seen)
      (kw :: kept, seen1)

mutual

/-- `transformNodeForHierarchicalView(node, seenKeywords)` of
`7.1. dataProcessingUtils.js`: copy the scalar fields (numerics defaulted by
`|| 0`), dedup the keywords array against the shared seen-set, then recurse
into the children. -/
def transformNodeForHierarchicalView : Node → List String → Node × List String
  | Node.mk d cs, seen =>
    let (keywords1, seen1) :=
      match d.keywords with
      | some kws =>
        let (kept, s) := dedupKeywords kws seen
        (some kept, s)
      | none => (none, seen)
    let (children1, seen2) := transformChildrenForHierarchicalView cs seen1
    (Node.mk
      { name := d.name
        type := d.type
        size := some (d.size.getD 0)
        totalKeywords := some (d.totalKeywords.getD 0)
        totalClusters := some (d.totalClusters.getD 0)
        averageKD := some (d.averageKD.getD 0)
        averageCPC := some (d.averageCPC.getD 0)
        metadata := d.metadata
        keywords := keywords1 }
      children1,
     seen2)

/-- `node.children.map(child => transformNodeForHierarchicalView(child,
seenKeywords))` with the seen-set threaded left to right. -/
def transformChildrenForHierarchicalView : List Node → List String → List Node × List String
  | [], seen => ([], seen)
  | n :: rest, seen =>
    let (n1, seen1) := transformNodeForHierarchicalView n seen
    let (rest1, seen2) := transformChildrenForHierarchicalView rest seen1
    (n1 :: rest1, seen2)

end

/-- The five flat lists produced by `extractAllNodesAndKeywords`. -/
structure ExtractedLists where
  keywordsList : List FlatRecord
  pillarsList : List FlatRecord
  parentsList : List FlatRecord
  subtopicsList : List FlatRecord
  clustersList : List FlatRecord
  deriving Repr, DecidableEq

def ExtractedLists.empty : ExtractedLists := ⟨[], [], [], [], []⟩

def ExtractedLists.append (a b : ExtractedLists) : ExtractedLists :=
  ⟨a.keywordsList ++ b.keywordsList, a.pillarsList ++ b.pillarsList,
   a.parentsList ++ b.parentsList, a.subtopicsList ++ b.subtopicsList,
   a.clustersList ++ b.clustersList⟩

/-- The keyword loop of the Cluster case of `extractAllNodesAndKeywords`:
emit a flat record per not-yet-seen keyword string, threading the seen-set. -/
def extractKeywordRecords (newPath : List String) (fullPathString : String) :
    List Keyword → List String → List FlatRecord × List String
  | [], seen => ([], seen)
  | kw :: rest, seen =>
    if kw.keyword ∈ seen then extractKeywordRecords newPath fullPathString rest seen
    else
      let entry : FlatRecord :=
        { name := kw.keyword
          type := NodeType.KEYWORDS
          searchVolume := some (kw.searchVolume.getD 0)
          keywordDifficulty := some (kw.keywordDifficulty.getD 0)
          cpc := some (kw.cpc.getD 0)
          totalKeywords := none
          totalClusters := none
          fullHierarchyPath := some (if newPath ≠ [] then fullPathString ++ " > " ++ kw.keyword
                                     else kw.keyword)
          metadata := none }
      let (entries, seen1) := extractKeywordRecords newPath fullPathString rest (kw.keyword :: seen)
      (entry :: entries, seen1)

/-- `extractAllNodesAndKeywords(nodes, NodeType, currentPath, level,
seenKeywords)` of `7.1. dataProcessingUtils.js` (the `level` argument feeds
only the omitted random `id`).  Produces the per-type flat lists with
hierarchy paths, deduplicating keywords through one shared seen-set. -/
def extractAllNodesAndKeywords : List Node → List String → List String →
    ExtractedLists × List String
  | [], _, seen => (.empty, seen)
  | Node.mk d cs :: rest, currentPath, seen =>
    if d.type = "" then extractAllNodesAndKeywords rest currentPath seen
    else
      let newPath := if d.name ≠ "" then currentPath ++ [d.name] else currentPath
      let fullPathString := String.intercalate " > " newPath
      let commonNodeData : FlatRecord :=
        { name := d.name
          type := d.type
          searchVolume := some (d.size.getD 0)
          keywordDifficulty := some (d.averageKD.getD 0)
          cpc := some (d.averageCPC.getD 0)
          totalKeywords := some (d.totalKeywords.getD 0)
          totalClusters := some (d.totalClusters.getD 0)
          fullHierarchyPath := some fullPathString
          metadata := none }
      let (own, seen1) : ExtractedLists × List String :=
        if d.type = NodeType.PILLAR then
          ({ ExtractedLists.empty with pillarsList := [commonNodeData] }, seen)
        else if d.type = NodeType.PARENT then
          ({ ExtractedLists.empty with parentsList := [commonNodeData] }, seen)
        else if d.type = NodeType.SUBTOPIC then
          ({ ExtractedLists.empty with subtopicsList := [commonNodeData] }, seen)
        else if d.type = NodeType.CLUSTER then
          let (kwRecords, s1) :=
            match d.keywords with
            | some kws => extractKeywordRecords newPath fullPathString kws seen
            | none => ([], seen)
          ({ ExtractedLists.empty with clustersList := [commonNodeData],
                                       keywordsList := kwRecords }, s1)
        else (.empty, seen)
      let (nested, seen2) := extractAllNodesAndKeywords cs newPath seen1
      let (fromRest, seen3) := extractAllNodesAndKeywords rest currentPath seen2
      (ExtractedLists.append (ExtractedLists.append own nested) fromRest, seen3)

/-- The body of `processRawDataFromFile` after a successful `JSON.parse`
(`rawDataArray = parsedData.data || []`): step 1 maps
`transformNodeForHierarchicalView` over the roots, giving each root a fresh
`new Set()`; step 2 extracts the flat lists from the transformed tree with
one fresh shared seen-set. -/
def processRawDataCore (rawDataArray : List Node) : List Node × ExtractedLists :=
  let hierarchicalData := rawDataArray.map fun n => (transformNodeForHierarchicalView n []).1
  let extracted := (extractAllNodesAndKeywords hierarchicalData [] []).1
  (hierarchicalData, extracted)

/-! ## MetricsAggregator (`calculateDynamicNodeMetrics`) -/

/-- The metrics record accumulated by `calculateDynamicNodeMetrics`. -/
@[ext]
structure Metrics where
  totalSearchVolume : ℚ
  totalKeywords : ℕ
  totalClusters : ℕ
  weightedKDSum : ℚ
  totalVolumeForKD : ℚ
  itemsWithKD : ℕ
  simpleKDSum : ℚ
  weightedCPCSum : ℚ
  totalVolumeForCPC : ℚ
  itemsWithCPC : ℕ
  simpleCPCSum : ℚ
  averageKD : ℚ
  averageCPC : ℚ
  deriving Repr, DecidableEq

def zeroMetrics : Metrics := ⟨0, 0, 0, 0, 0, 0, 0, 0, 0, 0, 0, 0, 0⟩

/-- The body of the `node.keywords.forEach` loop: count the keyword, add its
volume, and, for each metric the keyword supplies, its weighted and simple
accumulators. -/
def kwStep (m : Metrics) (kw : Keyword) : Metrics :=
  let sv := kw.searchVolume.getD 0
  let m1 := { m with totalKeywords := m.totalKeywords + 1,
                     totalSearchVolume := m.totalSearchVolume + sv }
  let m2 :=
    match kw.keywordDifficulty with
    | some kd => { m1 with weightedKDSum := m1.weightedKDSum + kd * sv,
                           totalVolumeForKD := m1.totalVolumeForKD + sv,
                           simpleKDSum := m1.simpleKDSum + kd,
                           itemsWithKD := m1.itemsWithKD + 1 }
    | none => m1
  match kw.cpc with
  | some cpc => { m2 with weightedCPCSum := m2.weightedCPCSum + cpc * sv,
                          totalVolumeForCPC := m2.totalVolumeForCPC + sv,
                          simpleCPCSum := m2.simpleCPCSum + cpc,
                          itemsWithCPC := m2.itemsWithCPC + 1 }
  | none => m2

/-- The body of the `node.children.forEach` loop: add the eleven raw
accumulators of the child (never its averages) into the parent metrics. -/
def addChildMetrics (m childMetrics : Metrics) : Metrics :=
  { m with
    totalSearchVolume := m.totalSearchVolume + childMetrics.totalSearchVolume
    totalKeywords := m.totalKeywords + childMetrics.totalKeywords
    totalClusters := m.totalClusters + childMetrics.totalClusters
    weightedKDSum := m.weightedKDSum + childMetrics.weightedKDSum
    totalVolumeForKD := m.totalVolumeForKD + childMetrics.totalVolumeForKD
    simpleKDSum := m.simpleKDSum + childMetrics.simpleKDSum
    itemsWithKD := m.itemsWithKD + childMetrics.itemsWithKD
    weightedCPCSum := m.weightedCPCSum + childMetrics.weightedCPCSum
    totalVolumeForCPC := m.totalVolumeForCPC + childMetrics.totalVolumeForCPC
    simpleCPCSum := m.simpleCPCSum + childMetrics.simpleCPCSum
    itemsWithCPC := m.itemsWithCPC + childMetrics.itemsWithCPC }

/-- The closing average computations: weighted average when metric-supplying
volume is positive, else simple mean when some item supplied the metric,
else 0. -/
def finalizeAverages (m : Metrics) : Metrics :=
  let averageKD :=
    if 0 < m.totalVolumeForKD then m.weightedKDSum / m.totalVolumeForKD
    else if 0 < m.itemsWithKD then m.simpleKDSum / (m.itemsWithKD : ℚ)
    else 0
  let averageCPC :=
    if 0 < m.totalVolumeForCPC then m.weightedCPCSum / m.totalVolumeForCPC
    else if 0 < m.itemsWithCPC then m.simpleCPCSum / (m.itemsWithCPC : ℚ)
    else 0
  { m with averageKD := averageKD, averageCPC := averageCPC }

mutual

/-- `calculateDynamicNodeMetrics(node, NodeType, calculateMetricsRecursively,
cache)` of `7.1. dataProcessingUtils.js`.  The `WeakMap` cache is a pure
memoization of this function on object references and does not change its
value, so it is not modelled. -/
def calculateDynamicNodeMetrics : Node → Metrics
  | Node.mk d cs =>
    let m0 := zeroMetrics
    let m1 := if d.type = NodeType.CLUSTER then { m0 with totalClusters := 1 } else m0
    let m2 :=
      match d.keywords with
      | some kws => if d.type = NodeType.CLUSTER ∧ kws ≠ [] then kws.foldl kwStep m1 else m1
      | none => m1
    finalizeAverages (childrenMetricsFold cs m2)

/-- The `node.children.forEach` recursion. -/
def childrenMetricsFold : List Node → Metrics → Metrics
  | [], m => m
  | c :: rest, m => childrenMetricsFold rest (addChildMetrics m (calculateDynamicNodeMetrics c))

end

mutual

/-- The keyword-level contributions of a subtree, in traversal order: a
Cluster node contributes its keywords array, then every node contributes its
contributions of its children. -/
def subtreeKeywords : Node → List Keyword
  | Node.mk d cs =>
    (if d.type = NodeType.CLUSTER then d.keywords.getD [] else []) ++ forestKeywords cs

def forestKeywords : List Node → List Keyword
  | [] => []
  | n :: rest => subtreeKeywords n ++ forestKeywords rest

end

/-! ## CSV export (`flattenNodeData` of `7.4.csvExportUtils.js`) -/

/-- A CSV cell value as produced by `flattenNodeData`: a string or a raw
number. -/
inductive CsvField : Type where
  | str (s : String)
  | num (q : ℚ)
  deriving Repr, DecidableEq

/-- A row handed to the CSV export (records of the filtered flat lists). -/
structure ExportNode where
  name : Option String
  searchVolume : Option ℚ
  keywordDifficulty : Option ℚ
  cpc : Option ℚ
  type : String
  keyword : Option String
  keywords : Option (List Keyword)
  deriving Repr, DecidableEq

/-- `node.x` defaulted to the empty string: absent or zero becomes the empty
string. -/
def orEmptyNum : Option ℚ → CsvField
  | some q => if q = 0 then .str "" else .num q
  | none => .str ""

/-- `flattenNodeData(node)` of `7.4.csvExportUtils.js`, the flat record as an
ordered column list (JS object keys keep insertion order; the `Keyword`
overwrite keeps its first position).  Note the literal uppercase tags
`KEYWORDS` and `CLUSTER` it compares against. -/
def flattenNodeData (node : ExportNode) : List (String × CsvField) :=
  let flatData : List (String × CsvField) :=
    [("Keyword", .str (node.name.getD "")),
     ("Search Volume", orEmptyNum node.searchVolume),
     ("Keyword Difficulty", orEmptyNum node.keywordDifficulty),
     ("CPC (USD)", orEmptyNum node.cpc)]
  let flatData :=
    match node.keyword with
    | some kw =>
      if node.type = "KEYWORDS" ∧ kw ≠ "" then ("Keyword", .str kw) :: flatData.tail
      else flatData
    | none => flatData
  match node.keywords with
  | some kws =>
    if node.type = "CLUSTER" then
      flatData ++ [("Keyword Count", .num (kws.length : ℚ)),
                   ("Keywords", .str (String.intercalate "; " (kws.map Keyword.keyword)))]
    else flatData
  | none => flatData

/-! ## Generic tree helpers for the theorems -/

/-- Every node of a forest: the roots and, recursively, all their
descendants. -/
def forestMembers : List Node → List Node
  | [] => []
  | Node.mk d cs :: rest => Node.mk d cs :: (forestMembers cs ++ forestMembers rest)

/-- All keyword strings stored in the `keywords` arrays of a forest, with
multiplicity. -/
def treeKeywordStrings (nodes : List Node) : List String :=
  (forestMembers nodes).foldr (fun n acc => (n.dataOf.keywords.getD []).map Keyword.keyword ++ acc) []

def fsC5 : FilterSetting := ⟨"custom", .num 1, .num 10⟩

def collNone : RangeColl := fun _ => none

def fsC7a : FilterSetting := ⟨"11-100x", .empty, .empty⟩

def fsC7b : FilterSetting := ⟨"custom", .nonNumeric, .empty⟩

def fsC10 : FilterSetting := ⟨"custom", .num 5, .empty⟩

def filtersC10 : Filters :=
  { nodeTypes := fun _ => true
    searchVolume := fsC10
    keywordDifficulty := ⟨"any", .empty, .empty⟩
    averageCPC := ⟨"any", .empty, .empty⟩ }

def recC10 : FlatRecord := ⟨"no volume", "keywords", none, some 50, some 1, none, none, some "P > no volume", none⟩

def recC8 : FlatRecord :=
  ⟨"B", "pillar", none, none, none, none, none, some "A > B", none⟩

def recC8b : FlatRecord :=
  ⟨"deep cleaning", "cluster", none, none, none, none, none,
   some "Pillar A > Hygiene > deep cleaning", none⟩

def anyRangeSetting : FilterSetting := ⟨"any", .empty, .empty⟩

def permissiveFilters : Filters :=
  { nodeTypes := fun _ => true
    searchVolume := anyRangeSetting
    keywordDifficulty := anyRangeSetting
    averageCPC := anyRangeSetting }

def kwDentalCrown : Keyword := ⟨"dental crown", some 100, some 20, some 1⟩

def kwDentalCrowns : Keyword := ⟨"dental crowns", some 90, some 30, some 2⟩

def kwCrownGuide : Keyword := ⟨"best dental crown guide", some 10, some 10, some 1⟩

def dataC4 : NodeData :=
  { name := "crowns cluster", type := "cluster", size := some 200, totalKeywords := some 3
    totalClusters := some 1, averageKD := some 20, averageCPC := some 1, metadata := none
    keywords := some [kwDentalCrown, kwDentalCrowns, kwCrownGuide] }

/-- The tree-filter context with the unquoted search term `dental crown`
(`isExact = false`) and otherwise permissive filters. -/
def ctxC4unquoted : TreeFilterCtx :=
  { filters := permissiveFilters
    searchTermsArray := [⟨"dental crown", false⟩]
    applyFiltersToNodeNames := true
    checkRangeFunc := checkRangeSelectionFilter
    svRanges := collNone, kdRanges := collNone, cpcRanges := collNone
    excludedKeywords := [] }

/-- The same context with the quoted search term `"dental crown"`
(`isExact = true`). -/
def ctxC4quoted : TreeFilterCtx :=
  { ctxC4unquoted with searchTermsArray := [⟨"dental crown", true⟩] }

def rowClusterTagged : ExportNode :=
  ⟨some "crowns cluster", some 10, some 5, some 1, NodeType.CLUSTER, none,
   some [kwDentalCrown, kwDentalCrowns]⟩

def rowUppercaseTagged : ExportNode :=
  ⟨some "crowns cluster", some 10, some 5, some 1, "CLUSTER", none,
   some [kwDentalCrown, kwDentalCrowns]⟩

def kwSeoTips : Keyword := ⟨"seo tips", some 5, some 10, some 1⟩

def rawClusterOne : Node := Node.mk
  ⟨"cluster one", "cluster", none, none, none, none, none, none, some [kwSeoTips]⟩ []

def rawClusterTwo : Node := Node.mk
  ⟨"cluster two", "cluster", none, none, none, none, none, none, some [kwSeoTips]⟩ []

/-- Tree-filter context with `applyFiltersToNodeNames = true` and the
exclusion list `["bad"]`. -/
def ctxC2 : TreeFilterCtx :=
  { filters := permissiveFilters
    searchTermsArray := []
    applyFiltersToNodeNames := true
    checkRangeFunc := checkRangeSelectionFilter
    svRanges := collNone, kdRanges := collNone, cpcRanges := collNone
    excludedKeywords := ["bad"] }

def goodChildNode : Node := Node.mk
  ⟨"good cluster", "cluster", some 1, none, none, some 1, some 1, none, none⟩ []

def badParentNode : Node := Node.mk
  ⟨"bad topic", "parent", some 1, none, none, none, none, none, none⟩ [goodChildNode]

/-- Tree-filter context like `ctxC2` but with an empty exclusion list. -/
def ctxC2w : TreeFilterCtx :=
  { ctxC2 with excludedKeywords := [] }

/-- Filters with every node type selected except Keywords. -/
def filtersNoKw : Filters :=
  { permissiveFilters with nodeTypes := fun t => !(t = NodeType.KEYWORDS) }

def ctxC9 : TreeFilterCtx :=
  { ctxC2w with filters := filtersNoKw }

def clusterC9 : Node := Node.mk
  ⟨"crowns", "cluster", some 1, none, none, some 1, some 1, none, some [kwDentalCrown]⟩ []

def clusterC9out : Node := Node.mk
  ⟨"crowns", "cluster", some 1, none, none, some 1, some 1, none, some []⟩ []

def kdItems (ks : List Keyword) : List Keyword :=
  ks.filter fun k => k.keywordDifficulty.isSome

def cpcItems (ks : List Keyword) : List Keyword :=
  ks.filter fun k => k.cpc.isSome

def wKD (ks : List Keyword) : ℚ :=
  ((kdItems ks).map fun k => k.keywordDifficulty.getD 0 * k.searchVolume.getD 0).sum

def vKD (ks : List Keyword) : ℚ :=
  ((kdItems ks).map fun k => k.searchVolume.getD 0).sum

def sKD (ks : List Keyword) : ℚ :=
  ((kdItems ks).map fun k => k.keywordDifficulty.getD 0).sum

def iKD (ks : List Keyword) : ℕ := (kdItems ks).length

def wCPC (ks : List Keyword) : ℚ :=
  ((cpcItems ks).map fun k => k.cpc.getD 0 * k.searchVolume.getD 0).sum

def vCPC (ks : List Keyword) : ℚ :=
  ((cpcItems ks).map fun k => k.searchVolume.getD 0).sum

def sCPC (ks : List Keyword) : ℚ :=
  ((cpcItems ks).map fun k => k.cpc.getD 0).sum

def iCPC (ks : List Keyword) : ℕ := (cpcItems ks).length

/-- The eight metric accumulators of `m` exceed those of `base` by exactly
the keyword-level sums over `ks`. -/
def MetricsAddAcc (m base : Metrics) (ks : List Keyword) : Prop :=
  m.weightedKDSum = base.weightedKDSum + wKD ks
  ∧ m.totalVolumeForKD = base.totalVolumeForKD + vKD ks
  ∧ m.itemsWithKD = base.itemsWithKD + iKD ks
  ∧ m.simpleKDSum = base.simpleKDSum + sKD ks
  ∧ m.weightedCPCSum = base.weightedCPCSum + wCPC ks
  ∧ m.totalVolumeForCPC = base.totalVolumeForCPC + vCPC ks
  ∧ m.itemsWithCPC = base.itemsWithCPC + iCPC ks
  ∧ m.simpleCPCSum = base.simpleCPCSum + sCPC ks

/-- The average policy of the claim over a keyword list: volume-weighted average
when the metric-supplying volume is positive, else the simple mean of the
supplied values, else 0. -/
def specAverageKD (ks : List Keyword) : ℚ :=
  if 0 < vKD ks then wKD ks / vKD ks
  else if 0 < iKD ks then sKD ks / (iKD ks : ℚ)
  else 0

def specAverageCPC (ks : List Keyword) : ℚ :=
  if 0 < vCPC ks then wCPC ks / vCPC ks
  else if 0 < iCPC ks then sCPC ks / (iCPC ks : ℚ)
  else 0

def clusterC3 : Node := Node.mk
  ⟨"c", "cluster", none, none, none, none, none, none,
   some [⟨"k1", some 100, some 50, none⟩, ⟨"k2", some 0, some 80, none⟩]⟩ []

/-! ## Theorems -/

theorem boundsPass_false_iff (v lo hi : ℚ) :
    boundsPass v (some lo) (some hi) = false ↔ (v < lo ∨ hi < v) := by
  by_cases h1 : v < lo <;> by_cases h2 : hi < v <;>
    simp [boundsPass, h1, h2, gt_iff_lt]

/-- C5: for every parsable numeric value and every range filter resolving to
defined bounds, `checkRangeSelectionFilter` returns false iff the value is
strictly below the lower bound or strictly above the upper bound; values
equal to either bound pass (both range ends inclusive). -/
theorem checkRange_inclusive_bounds (v lo hi : ℚ) (fs : FilterSetting) (coll : RangeColl)
    (hany : fs.currentSelection ≠ "any") (hempty : fs.currentSelection ≠ "")
    (hres : resolvedBounds fs coll = (some lo, some hi)) :
    checkRangeSelectionFilter (.num v) fs coll = false ↔ (v < lo ∨ hi < v) := by
  unfold checkRangeSelectionFilter
  dsimp only
  rw [if_neg (by simp [hany, hempty])]
  unfold resolvedBounds at hres
  by_cases hc : fs.currentSelection = "custom"
  · rw [if_pos hc] at hres
    rw [if_pos hc]
    have h1 := congrArg Prod.fst hres
    have h2 := congrArg Prod.snd hres
    simp only [Prod.fst, Prod.snd] at h1 h2
    rw [h1, h2]
    exact boundsPass_false_iff v lo hi
  · rw [if_neg hc] at hres
    rw [if_neg hc]
    cases hcoll : coll fs.currentSelection with
    | none => rw [hcoll] at hres; simp at hres
    | some range =>
      rw [hcoll] at hres
      have h1 := congrArg Prod.fst hres
      have h2 := congrArg Prod.snd hres
      simp only [Prod.fst, Prod.snd] at h1 h2
      show boundsPass v range.min range.max = false ↔ v < lo ∨ hi < v
      rw [h1, h2]
      exact boundsPass_false_iff v lo hi

/-- Witness for C5: the custom range [1, 10] at the boundary value 1. -/
theorem checkRange_inclusive_bounds_witness :
    fsC5.currentSelection ≠ "any"
    ∧ resolvedBounds fsC5 collNone = (some 1, some 10)
    ∧ (checkRangeSelectionFilter (.num 1) fsC5 collNone = false ↔ ((1:ℚ) < 1 ∨ (10:ℚ) < 1)) :=
  ⟨by decide, rfl,
   checkRange_inclusive_bounds 1 1 10 fsC5 collNone (by decide) (by decide) rfl⟩

/-- C7: a range filter whose `currentSelection` names a key absent from the
named-range collection, or is `"custom"` with empty or unparsable bounds,
constrains nothing: `checkRangeSelectionFilter` passes every value
(fail-open, never fail-closed). -/
theorem checkRange_failOpen (v : JsValue) (fs : FilterSetting) (coll : RangeColl) :
    (fs.currentSelection ≠ "custom" → coll fs.currentSelection = none →
      checkRangeSelectionFilter v fs coll = true)
    ∧ (fs.currentSelection = "custom" → customBound fs.customMin = none →
      customBound fs.customMax = none → checkRangeSelectionFilter v fs coll = true) := by
  constructor
  · intro hc habs
    cases v with
    | nan => rfl
    | num q =>
      unfold checkRangeSelectionFilter
      by_cases hany : fs.currentSelection = "any" ∨ fs.currentSelection = ""
      · simp [hany]
      · simp only [hany, if_false, if_neg hc, habs]
  · intro hc hmin hmax
    cases v with
    | nan => rfl
    | num q =>
      unfold checkRangeSelectionFilter
      by_cases hany : fs.currentSelection = "any" ∨ fs.currentSelection = ""
      · simp [hany]
      · simp [hany, hc, hmin, hmax, boundsPass]

/-- Witness for C7: an unknown named-range key and a custom filter with an
unparsable lower input and an empty upper input both pass the value 5. -/
theorem checkRange_failOpen_witness :
    collNone fsC7a.currentSelection = none
    ∧ checkRangeSelectionFilter (.num 5) fsC7a collNone = true
    ∧ checkRangeSelectionFilter (.num 5) fsC7b collNone = true :=
  ⟨rfl,
   (checkRange_failOpen (.num 5) fsC7a collNone).1 (by decide) rfl,
   (checkRange_failOpen (.num 5) fsC7b collNone).2 rfl rfl rfl⟩

theorem checkRange_min_fail (v lo : ℚ) (fs : FilterSetting) (coll : RangeColl)
    (hany : fs.currentSelection ≠ "any") (hempty : fs.currentSelection ≠ "")
    (hres : (resolvedBounds fs coll).1 = some lo) (hlt : v < lo) :
    checkRangeSelectionFilter (.num v) fs coll = false := by
  unfold checkRangeSelectionFilter
  dsimp only
  rw [if_neg (by simp [hany, hempty])]
  unfold resolvedBounds at hres
  by_cases hc : fs.currentSelection = "custom"
  · rw [if_pos hc] at hres
    rw [if_pos hc]
    simp only [Prod.fst] at hres
    rw [hres]
    simp [boundsPass, hlt]
  · rw [if_neg hc] at hres
    rw [if_neg hc]
    cases hcoll : coll fs.currentSelection with
    | none => rw [hcoll] at hres; simp at hres
    | some range =>
      rw [hcoll] at hres
      simp only [Prod.fst] at hres
      show boundsPass v range.min range.max = false
      rw [hres]
      simp [boundsPass, hlt]

theorem mem_flatFilter_numericPred (sourceList : List FlatRecord) (filters : Filters)
    (selectedPillar : String) (searchTermsArray : List SearchTerm) (singleSelectedType : String)
    (chk : JsValue → FilterSetting → RangeColl → Bool)
    (svRanges kdRanges cpcRanges : RangeColl) (excludedKeywords : List String) (r : FlatRecord)
    (hmem : r ∈ filterFlatListByType_internal sourceList filters selectedPillar searchTermsArray
        singleSelectedType chk svRanges kdRanges cpcRanges excludedKeywords) :
    flatNumericPred chk filters svRanges kdRanges cpcRanges r = true := by
  unfold filterFlatListByType_internal at hmem
  by_cases hts : searchTermsArray = []
  · rw [if_neg (by simp [hts])] at hmem
    simp only [List.mem_filter] at hmem
    exact hmem.1.2
  · rw [if_pos (by simp [hts])] at hmem
    simp only [List.mem_filter] at hmem
    exact hmem.1.1.2

/-- C10: a flat record whose `searchVolume`, `keywordDifficulty` or `cpc` is
absent has that metric evaluated as 0 (the `|| 0` default), so it is dropped
by `filterFlatListByType` whenever the corresponding range filter is active
with a lower bound above 0 — a record with an absent metric is not passed
unconditionally. -/
theorem flatFilter_missing_metric_dropped (sourceList : List FlatRecord) (filters : Filters)
    (selectedPillar : String) (searchTermsArray : List SearchTerm) (singleSelectedType : String)
    (svRanges kdRanges cpcRanges : RangeColl) (excludedKeywords : List String)
    (r : FlatRecord) (lo : ℚ) (hpos : 0 < lo)
    (h : (r.searchVolume = none ∧ filters.searchVolume.currentSelection ≠ "any"
            ∧ filters.searchVolume.currentSelection ≠ ""
            ∧ (resolvedBounds filters.searchVolume svRanges).1 = some lo)
       ∨ (r.keywordDifficulty = none ∧ filters.keywordDifficulty.currentSelection ≠ "any"
            ∧ filters.keywordDifficulty.currentSelection ≠ ""
            ∧ (resolvedBounds filters.keywordDifficulty kdRanges).1 = some lo)
       ∨ (r.cpc = none ∧ filters.averageCPC.currentSelection ≠ "any"
            ∧ filters.averageCPC.currentSelection ≠ ""
            ∧ (resolvedBounds filters.averageCPC cpcRanges).1 = some lo)) :
    r ∉ filterFlatListByType_internal sourceList filters selectedPillar searchTermsArray
        singleSelectedType checkRangeSelectionFilter svRanges kdRanges cpcRanges
        excludedKeywords := by
  intro hmem
  have hnum := mem_flatFilter_numericPred sourceList filters selectedPillar searchTermsArray
    singleSelectedType checkRangeSelectionFilter svRanges kdRanges cpcRanges excludedKeywords
    r hmem
  unfold flatNumericPred at hnum
  rcases h with ⟨hnone, h1, h2, h3⟩ | ⟨hnone, h1, h2, h3⟩ | ⟨hnone, h1, h2, h3⟩ <;>
    rw [hnone] at hnum <;>
    simp only [Option.getD_none] at hnum <;>
    rw [checkRange_min_fail 0 lo _ _ h1 h2 h3 hpos] at hnum <;>
    simp at hnum

/-- Witness for C10: a record without a `searchVolume` is dropped by an
active custom search-volume filter with lower bound 5. -/
theorem flatFilter_missing_metric_dropped_witness :
    recC10.searchVolume = none
    ∧ recC10 ∉ filterFlatListByType_internal [recC10] filtersC10 "all" [] "keywords"
        checkRangeSelectionFilter collNone collNone collNone [] :=
  ⟨rfl,
   flatFilter_missing_metric_dropped [recC10] filtersC10 "all" [] "keywords"
     collNone collNone collNone [] recC10 5 (by norm_num)
     (Or.inl ⟨rfl, by decide, by decide, rfl⟩)⟩

theorem strStartsWith_empty (pre : String) (hpre : pre.data ≠ []) :
    strStartsWith "" pre = false := by
  unfold strStartsWith
  cases h : pre.data with
  | nil => exact absurd h hpre
  | cons c rest => simp [List.isPrefixOf]

theorem pillarScopePred_iff (p : String) (item : FlatRecord) :
    pillarScopePred p item = true ↔
      ((item.type = NodeType.PILLAR ∧ item.name = p)
        ∨ (item.type ≠ NodeType.PILLAR
            ∧ strStartsWith (item.fullHierarchyPath.getD "") (p ++ " > ") = true)) := by
  have hne : (p ++ " > ").data ≠ [] := by
    intro h
    have hlen : (p ++ " > ").length = 0 := by rw [String.length, h]; rfl
    rw [String.length_append] at hlen
    have h3 : (" > " : String).length = 3 := rfl
    omega
  unfold pillarScopePred
  cases hpath : item.fullHierarchyPath with
  | none =>
    simp only [Option.getD_none]
    by_cases ht : item.type = NodeType.PILLAR <;>
      simp [ht, strStartsWith_empty _ hne]
  | some path =>
    dsimp only [Option.getD_some]
    by_cases hpe : path = ""
    · subst hpe
      rw [if_pos rfl]
      by_cases ht : item.type = NodeType.PILLAR <;>
        simp [ht, strStartsWith_empty _ hne]
    · rw [if_neg hpe]
      by_cases ht : item.type = NodeType.PILLAR <;> simp [ht, hpe]

/-- Counterexample for C8: a Pillar-typed record named `"B"` whose path
starts with `"A > "` is dropped by the pillar-scoping stage for pillar
`"A"`, although the claim requires every record whose path starts with
`"<selectedPillar> > "` to be kept. -/
theorem pillarScope_counterexample :
    strStartsWith "A > B" ("A" ++ " > ") = true
    ∧ List.filter (pillarScopePred "A") [recC8] = [] := by
  constructor
  · rfl
  · rfl

/-- C8 (amended): the pillar-scoping stage of `filterFlatListByType` (the
filter run when `selectedPillar` is neither `"all"` nor empty) keeps exactly
the Pillar-typed records whose `name` equals `selectedPillar` (their path is
not consulted) plus the non-Pillar records whose path string starts with
`"<selectedPillar> > "` (an absent or empty path reads as `""` and never
matches); in particular Pillar-typed records with a matching path prefix but
a different name are dropped. -/
theorem pillarScope_keeps_iff (sourceList : List FlatRecord) (p : String)
    (hall : p ≠ "all") (hne : p ≠ "") (item : FlatRecord) :
    item ∈ sourceList.filter (pillarScopePred p) ↔
      item ∈ sourceList
        ∧ ((item.type = NodeType.PILLAR ∧ item.name = p)
            ∨ (item.type ≠ NodeType.PILLAR
                ∧ strStartsWith (item.fullHierarchyPath.getD "") (p ++ " > ") = true)) := by
  rw [List.mem_filter, pillarScopePred_iff p item]

/-- Witness for C8: a Cluster record under `"Pillar A"` is kept by the
pillar-scoping stage for `"Pillar A"`. -/
theorem pillarScope_keeps_iff_witness :
    recC8b ∈ List.filter (pillarScopePred "Pillar A") [recC8b] ↔
      recC8b ∈ [recC8b]
        ∧ ((recC8b.type = NodeType.PILLAR ∧ recC8b.name = "Pillar A")
            ∨ (recC8b.type ≠ NodeType.PILLAR
                ∧ strStartsWith (recC8b.fullHierarchyPath.getD "") ("Pillar A" ++ " > ") = true)) :=
  pillarScope_keeps_iff [recC8b] "Pillar A" (by decide) (by decide) recC8b

/-- Counterexample for C4: the keyword `"dental crowns"` is in the cluster
but the unquoted term `dental crown` does not keep it — the trailing `s` is a
word character, so the `\b`-anchored match fails, contradicting the claim
that the unquoted term matches both keywords. -/
theorem searchTerm_counterexample :
    kwDentalCrowns ∈ dataC4.keywords.getD []
    ∧ kwDentalCrowns ∉ filteredKeywordsOf ctxC4unquoted dataC4 := by
  constructor
  · decide
  · decide

/-- C4 (amended): on a cluster containing `"dental crown"`,
`"dental crowns"` and `"best dental crown guide"`, the unquoted term
`dental crown` keeps exactly the keywords in which `dental crown` occurs
delimited by word boundaries — `"dental crown"` itself and
`"best dental crown guide"`, but not `"dental crowns"` (the trailing `s`
removes the closing word boundary) — while the quoted term `"dental crown"`
(`isExact = true`) keeps only the keyword exactly equal to
`"dental crown"`. -/
theorem searchTerm_exact_vs_wordBoundary :
    filteredKeywordsOf ctxC4unquoted dataC4 = [kwDentalCrown, kwCrownGuide]
    ∧ filteredKeywordsOf ctxC4quoted dataC4 = [kwDentalCrown] := by
  constructor
  · decide
  · decide

/-- C6: `flattenNodeData` emits the fixed columns
`Keyword, Search Volume, Keyword Difficulty, CPC (USD)` for every row, but
the two extra columns `Keyword Count` and `Keywords` are gated on the literal
tag `"CLUSTER"`, which differs from the Cluster tag of the pipeline,
`NodeType.CLUSTER = "cluster"`: a Cluster row of the pipeline (lowercase tag)
gets no extra columns, while a row carrying the literal `"CLUSTER"` gets them
with the `"; "`-joined keyword strings. -/
theorem flattenNodeData_cluster_columns :
    NodeType.CLUSTER ≠ "CLUSTER"
    ∧ (flattenNodeData rowClusterTagged).map Prod.fst
        = ["Keyword", "Search Volume", "Keyword Difficulty", "CPC (USD)"]
    ∧ (flattenNodeData rowUppercaseTagged).map Prod.fst
        = ["Keyword", "Search Volume", "Keyword Difficulty", "CPC (USD)",
           "Keyword Count", "Keywords"]
    ∧ (flattenNodeData rowUppercaseTagged).getLast?
        = some ("Keywords", .str "dental crown; dental crowns") := by
  refine ⟨by decide, ?_, ?_, ?_⟩
  · decide
  · decide
  · decide

/-- C1: on the input holding the same keyword string `"seo tips"` under two
different roots, one pass of `processRawDataFromFile` leaves the keyword
TWICE in the canonical tree — `transformNodeForHierarchicalView` is started
with a fresh `new Set()` for every root, so tree-level deduplication is only
per root — while the global keyword flat list built by
`extractAllNodesAndKeywords` (one shared seen-set) holds it once, contrary to
the claimed global at-most-once guarantee for both outputs. -/
theorem processRawData_dedup_not_global :
    treeKeywordStrings (processRawDataCore [rawClusterOne, rawClusterTwo]).1
      = ["seo tips", "seo tips"]
    ∧ ((processRawDataCore [rawClusterOne, rawClusterTwo]).2.keywordsList.map FlatRecord.name)
      = ["seo tips"] := by
  constructor
  · simp [processRawDataCore, rawClusterOne, rawClusterTwo, treeKeywordStrings, forestMembers,
      transformNodeForHierarchicalView, transformChildrenForHierarchicalView, dedupKeywords,
      kwSeoTips, Node.dataOf]
  · simp [processRawDataCore, rawClusterOne, rawClusterTwo, extractAllNodesAndKeywords,
      transformNodeForHierarchicalView, transformChildrenForHierarchicalView, dedupKeywords,
      extractKeywordRecords, kwSeoTips, NodeType.CLUSTER, NodeType.PILLAR, NodeType.PARENT,
      NodeType.SUBTOPIC, NodeType.KEYWORDS, ExtractedLists.append, ExtractedLists.empty]

/-- C2 (amended): if any of the children of a node survives the filter, the
node itself is included in the filtered result — regardless of its own
numeric, search and node-type checks — PROVIDED the node is not skipped by
the name-exclusion guard (`applyFiltersToNodeNames` set and the node
having a trimmed lowercased name containing an excluded string); such an
exclusion-matched node is pruned together with its surviving descendants. -/
theorem treeFilter_ancestor_preserved (ctx : TreeFilterCtx) (nodes : List Node) (n : Node)
    (hmem : n ∈ nodes)
    (hexcl : ¬(ctx.applyFiltersToNodeNames = true
                ∧ isExcluded ctx.excludedKeywords n.dataOf.name = true))
    (hchild : filterHierarchicalTreeRecursive_internal ctx n.childrenOf ≠ []) :
    Node.mk { n.dataOf with keywords := some (filteredKeywordsOf ctx n.dataOf) }
        (filterHierarchicalTreeRecursive_internal ctx n.childrenOf)
      ∈ filterHierarchicalTreeRecursive_internal ctx nodes := by
  induction nodes with
  | nil => cases hmem
  | cons head rest ih =>
    obtain ⟨d, cs⟩ := head
    rcases List.mem_cons.mp hmem with heq | hmemtail
    · subst heq
      have hg : (ctx.applyFiltersToNodeNames && isExcluded ctx.excludedKeywords d.name) = false := by
        cases ha : ctx.applyFiltersToNodeNames with
        | false => simp [ha]
        | true =>
          cases hb : isExcluded ctx.excludedKeywords d.name with
          | false => simp [hb]
          | true => exact absurd ⟨ha, hb⟩ hexcl
      simp only [filterHierarchicalTreeRecursive_internal, hg, Bool.false_eq_true, if_false]
      have hvc : (filterHierarchicalTreeRecursive_internal ctx cs).isEmpty = false := by
        cases hfc : filterHierarchicalTreeRecursive_internal ctx cs with
        | nil => exact absurd hfc hchild
        | cons a b => rfl
      simp only [hvc, Bool.not_false, if_true, Node.dataOf, Node.childrenOf]
      exact List.mem_append_left _ (List.mem_singleton.mpr rfl)
    · by_cases hg : (ctx.applyFiltersToNodeNames && isExcluded ctx.excludedKeywords d.name) = true
      · simp only [filterHierarchicalTreeRecursive_internal, hg, if_true]
        exact ih hmemtail
      · rw [Bool.not_eq_true] at hg
        simp only [filterHierarchicalTreeRecursive_internal, hg, Bool.false_eq_true, if_false]
        exact List.mem_append_right _ (ih hmemtail)

/-- Counterexample for C2: the child of the node named `"bad topic"` survives
the filter on its own, yet with the exclusion list `["bad"]` and
`applyFiltersToNodeNames = true` the parent (and with it the surviving
subtree) is dropped entirely, although the claim requires a node with a
surviving descendant to be included for every exclusion set. -/
theorem treeFilter_ancestor_counterexample :
    filterHierarchicalTreeRecursive_internal ctxC2 badParentNode.childrenOf ≠ []
    ∧ filterHierarchicalTreeRecursive_internal ctxC2 [badParentNode] = [] := by
  constructor
  · simp [filterHierarchicalTreeRecursive_internal, ctxC2, badParentNode, goodChildNode,
      Node.childrenOf, permissiveFilters, nodePassesNumerics, nodePassesSearch,
      filteredKeywordsOf, checkRangeSelectionFilter, anyRangeSetting, isExcluded,
      strLower, strTrim, containsSub]
  · simp [filterHierarchicalTreeRecursive_internal, ctxC2, badParentNode, goodChildNode,
      Node.childrenOf, permissiveFilters, nodePassesNumerics, nodePassesSearch,
      filteredKeywordsOf, checkRangeSelectionFilter, anyRangeSetting, isExcluded,
      strLower, strTrim, containsSub]

/-- Witness for C2 (amended): with no exclusion in play, the parent of a
surviving child is kept. -/
theorem treeFilter_ancestor_preserved_witness :
    Node.mk { badParentNode.dataOf with
                keywords := some (filteredKeywordsOf ctxC2w badParentNode.dataOf) }
        (filterHierarchicalTreeRecursive_internal ctxC2w badParentNode.childrenOf)
      ∈ filterHierarchicalTreeRecursive_internal ctxC2w [badParentNode] :=
  treeFilter_ancestor_preserved ctxC2w [badParentNode] badParentNode
    (List.mem_singleton.mpr rfl)
    (by decide)
    (by simp [filterHierarchicalTreeRecursive_internal, ctxC2w, ctxC2, badParentNode,
      goodChildNode, Node.childrenOf, permissiveFilters, nodePassesNumerics, nodePassesSearch,
      filteredKeywordsOf, checkRangeSelectionFilter, anyRangeSetting, isExcluded,
      strLower, strTrim, containsSub])

theorem filteredKeywordsOf_keywordsOff (ctx : TreeFilterCtx)
    (hk : ctx.filters.nodeTypes NodeType.KEYWORDS = false) (d : NodeData) :
    filteredKeywordsOf ctx d = [] := by
  unfold filteredKeywordsOf
  cases d.keywords with
  | none => rfl
  | some kws =>
    by_cases ht : d.type = NodeType.CLUSTER
    · simp [ht, hk]
    · simp [ht]

theorem forestMembers_append : ∀ a b : List Node,
    forestMembers (a ++ b) = forestMembers a ++ forestMembers b
  | [], b => by simp [forestMembers]
  | Node.mk d cs :: rest, b => by
    simp [forestMembers, forestMembers_append rest b]

theorem mem_of_mem_forestMembers_ite {m : Node} {c : Prop} [Decidable c] {l : List Node}
    (h : m ∈ forestMembers (if c then l else [])) : m ∈ forestMembers l := by
  by_cases hc : c
  · rwa [if_pos hc] at h
  · rw [if_neg hc] at h
    simp [forestMembers] at h

theorem keywords_cleared_aux (ctx : TreeFilterCtx)
    (hk : ctx.filters.nodeTypes NodeType.KEYWORDS = false) :
    ∀ nodes : List Node,
      ∀ m ∈ forestMembers (filterHierarchicalTreeRecursive_internal ctx nodes),
        m.dataOf.keywords = some []
  | [] => by simp [filterHierarchicalTreeRecursive_internal, forestMembers]
  | Node.mk d cs :: rest => by
    intro m hm
    by_cases hg : (ctx.applyFiltersToNodeNames && isExcluded ctx.excludedKeywords d.name) = true
    · rw [filterHierarchicalTreeRecursive_internal] at hm
      rw [if_pos hg] at hm
      exact keywords_cleared_aux ctx hk rest m hm
    · rw [Bool.not_eq_true] at hg
      simp only [filterHierarchicalTreeRecursive_internal, hg, Bool.false_eq_true, if_false] at hm
      rw [forestMembers_append] at hm
      rcases List.mem_append.mp hm with hml | hmr
      · have hml2 := mem_of_mem_forestMembers_ite hml
        simp only [forestMembers, List.append_nil] at hml2
        rcases List.mem_cons.mp hml2 with hmeq | hmc
        · subst hmeq
          simp [Node.dataOf, filteredKeywordsOf_keywordsOff ctx hk]
        · exact keywords_cleared_aux ctx hk cs m hmc
      · exact keywords_cleared_aux ctx hk rest m hmr
termination_by nodes => sizeOf nodes

/-- C9: when the Keywords node type is toggled off, every Cluster node
anywhere in the output of `filterHierarchicalTreeRecursive` carries an empty
`keywords` array — the keyword list of the returned copy is cleared, not passed
through (the proof shows it for every output node, Cluster or not). -/
theorem treeFilter_keywordsOff_clusters_empty (ctx : TreeFilterCtx)
    (hk : ctx.filters.nodeTypes NodeType.KEYWORDS = false) (nodes : List Node) :
    ∀ m ∈ forestMembers (filterHierarchicalTreeRecursive_internal ctx nodes),
      m.dataOf.type = NodeType.CLUSTER → m.dataOf.keywords = some [] :=
  fun m hm _ => keywords_cleared_aux ctx hk nodes m hm

/-- Witness for C9: a cluster holding one keyword comes out of the filter
with its `keywords` array cleared when the Keywords type is off. -/
theorem treeFilter_keywordsOff_clusters_empty_witness :
    clusterC9out.dataOf.keywords = some [] :=
  treeFilter_keywordsOff_clusters_empty ctxC9 (by decide) [clusterC9] clusterC9out
    (by simp [filterHierarchicalTreeRecursive_internal, forestMembers, ctxC9, ctxC2w, ctxC2,
      clusterC9, clusterC9out, filtersNoKw, permissiveFilters, nodePassesNumerics,
      nodePassesSearch, filteredKeywordsOf, checkRangeSelectionFilter, anyRangeSetting,
      isExcluded, NodeType.CLUSTER, NodeType.KEYWORDS])
    rfl

theorem specSums_append (a b : List Keyword) :
    wKD (a ++ b) = wKD a + wKD b ∧ vKD (a ++ b) = vKD a + vKD b
    ∧ iKD (a ++ b) = iKD a + iKD b ∧ sKD (a ++ b) = sKD a + sKD b
    ∧ wCPC (a ++ b) = wCPC a + wCPC b ∧ vCPC (a ++ b) = vCPC a + vCPC b
    ∧ iCPC (a ++ b) = iCPC a + iCPC b ∧ sCPC (a ++ b) = sCPC a + sCPC b := by
  refine ⟨?_, ?_, ?_, ?_, ?_, ?_, ?_, ?_⟩ <;>
    simp [wKD, vKD, iKD, sKD, wCPC, vCPC, iCPC, sCPC, kdItems, cpcItems, List.filter_append]

theorem MetricsAddAcc.trans {a b c : Metrics} {ks1 ks2 : List Keyword}
    (h1 : MetricsAddAcc a b ks1) (h2 : MetricsAddAcc b c ks2) :
    MetricsAddAcc a c (ks2 ++ ks1) := by
  obtain ⟨p1, p2, p3, p4, p5, p6, p7, p8⟩ := h1
  obtain ⟨q1, q2, q3, q4, q5, q6, q7, q8⟩ := h2
  obtain ⟨r1, r2, r3, r4, r5, r6, r7, r8⟩ := specSums_append ks2 ks1
  exact ⟨by rw [p1, q1, r1]; ring, by rw [p2, q2, r2]; ring, by rw [p3, q3, r3]; ring,
         by rw [p4, q4, r4]; ring, by rw [p5, q5, r5]; ring, by rw [p6, q6, r6]; ring,
         by rw [p7, q7, r7]; ring, by rw [p8, q8, r8]; ring⟩

theorem kwStep_acc (m : Metrics) (kw : Keyword) : MetricsAddAcc (kwStep m kw) m [kw] := by
  refine ⟨?_, ?_, ?_, ?_, ?_, ?_, ?_, ?_⟩ <;>
    rcases hkd : kw.keywordDifficulty with _ | kd <;>
      rcases hcpc : kw.cpc with _ | cpc <;>
        simp [kwStep, hkd, hcpc, wKD, vKD, iKD, sKD, wCPC, vCPC, iCPC, sCPC, kdItems, cpcItems]

theorem foldl_kwStep_acc (ks : List Keyword) : ∀ m : Metrics,
    MetricsAddAcc (ks.foldl kwStep m) m ks := by
  induction ks with
  | nil =>
    intro m
    refine ⟨?_, ?_, ?_, ?_, ?_, ?_, ?_, ?_⟩ <;>
      simp [wKD, vKD, iKD, sKD, wCPC, vCPC, iCPC, sCPC, kdItems, cpcItems]
  | cons kw ks ih =>
    intro m
    rw [List.foldl_cons]
    exact (ih (kwStep m kw)).trans (kwStep_acc m kw)

theorem Node.inductionOn {P : Node → Prop}
    (h : ∀ d cs, (∀ c ∈ cs, P c) → P (Node.mk d cs)) : ∀ n, P n
  | Node.mk d cs => h d cs fun c hc => Node.inductionOn h c
termination_by n => sizeOf n
decreasing_by
  have h1 := List.sizeOf_lt_of_mem hc
  simp only [Node.mk.sizeOf_spec]
  omega

theorem finalize_preserves_acc {m base : Metrics} {ks : List Keyword}
    (h : MetricsAddAcc m base ks) : MetricsAddAcc (finalizeAverages m) base ks := h

theorem childrenFold_acc (cs : List Node)
    (h : ∀ c ∈ cs, MetricsAddAcc (calculateDynamicNodeMetrics c) zeroMetrics (subtreeKeywords c)) :
    ∀ m : Metrics, MetricsAddAcc (childrenMetricsFold cs m) m (forestKeywords cs) := by
  induction cs with
  | nil =>
    intro m
    simp only [childrenMetricsFold, forestKeywords]
    refine ⟨?_, ?_, ?_, ?_, ?_, ?_, ?_, ?_⟩ <;>
      simp [wKD, vKD, iKD, sKD, wCPC, vCPC, iCPC, sCPC, kdItems, cpcItems]
  | cons c cs ih =>
    intro m
    simp only [childrenMetricsFold, forestKeywords]
    have hc := h c (List.mem_cons_self c cs)
    have hrest := ih (fun x hx => h x (List.mem_cons_of_mem c hx))
      (addChildMetrics m (calculateDynamicNodeMetrics c))
    have hstep : MetricsAddAcc (addChildMetrics m (calculateDynamicNodeMetrics c)) m
        (subtreeKeywords c) := by
      obtain ⟨p1, p2, p3, p4, p5, p6, p7, p8⟩ := hc
      refine ⟨?_, ?_, ?_, ?_, ?_, ?_, ?_, ?_⟩ <;>
        simp [addChildMetrics, p1, p2, p3, p4, p5, p6, p7, p8, zeroMetrics]
    exact hrest.trans hstep

theorem calc_acc : ∀ n : Node,
    MetricsAddAcc (calculateDynamicNodeMetrics n) zeroMetrics (subtreeKeywords n) := by
  refine Node.inductionOn ?_
  intro d cs ih
  simp only [calculateDynamicNodeMetrics, subtreeKeywords]
  apply finalize_preserves_acc
  refine MetricsAddAcc.trans (childrenFold_acc cs ih _) ?_
  rcases hkw : d.keywords with _ | kws
  · by_cases ht : d.type = NodeType.CLUSTER <;>
      refine ⟨?_, ?_, ?_, ?_, ?_, ?_, ?_, ?_⟩ <;>
        simp [ht, zeroMetrics, wKD, vKD, iKD, sKD, wCPC, vCPC, iCPC, sCPC, kdItems, cpcItems]
  · by_cases ht : d.type = NodeType.CLUSTER
    · by_cases hne : kws = []
      · subst hne
        simp only [ht, Option.getD_some]
        refine ⟨?_, ?_, ?_, ?_, ?_, ?_, ?_, ?_⟩ <;>
          simp [ht, zeroMetrics, wKD, vKD, iKD, sKD, wCPC, vCPC, iCPC, sCPC, kdItems, cpcItems]
      · simp only [ht, hne, Option.getD_some, not_false_iff, and_self, if_true, and_true,
          eq_self_iff_true, true_and, ne_eq, if_pos]
        obtain ⟨p1, p2, p3, p4, p5, p6, p7, p8⟩ :=
          foldl_kwStep_acc kws { zeroMetrics with totalClusters := 1 }
        exact ⟨p1, p2, p3, p4, p5, p6, p7, p8⟩
    · simp only [ht, Option.getD_some]
      refine ⟨?_, ?_, ?_, ?_, ?_, ?_, ?_, ?_⟩ <;>
        simp [ht, zeroMetrics, wKD, vKD, iKD, sKD, wCPC, vCPC, iCPC, sCPC, kdItems, cpcItems]

theorem calc_avg_shape : ∀ n : Node,
    (calculateDynamicNodeMetrics n).averageKD =
      (if 0 < (calculateDynamicNodeMetrics n).totalVolumeForKD then
        (calculateDynamicNodeMetrics n).weightedKDSum
          / (calculateDynamicNodeMetrics n).totalVolumeForKD
      else if 0 < (calculateDynamicNodeMetrics n).itemsWithKD then
        (calculateDynamicNodeMetrics n).simpleKDSum
          / ((calculateDynamicNodeMetrics n).itemsWithKD : ℚ)
      else 0)
    ∧ (calculateDynamicNodeMetrics n).averageCPC =
      (if 0 < (calculateDynamicNodeMetrics n).totalVolumeForCPC then
        (calculateDynamicNodeMetrics n).weightedCPCSum
          / (calculateDynamicNodeMetrics n).totalVolumeForCPC
      else if 0 < (calculateDynamicNodeMetrics n).itemsWithCPC then
        (calculateDynamicNodeMetrics n).simpleCPCSum
          / ((calculateDynamicNodeMetrics n).itemsWithCPC : ℚ)
      else 0) := by
  intro n
  cases n with
  | mk d cs =>
    simp only [calculateDynamicNodeMetrics]
    exact ⟨rfl, rfl⟩

/-- C3: for every node, `calculateDynamicNodeMetrics` computes `averageKD`
and `averageCPC` from raw keyword-level accumulators summed bottom-up over
the whole subtree: the volume-weighted average Σ(metric×volume)/Σvolume when
the metric-supplying volume is positive, else the simple mean of the
supplied metric values, else 0; and on a cluster with keywords
`[{sv:100,kd:50},{sv:0,kd:80}]` the `averageKD` is 50. -/
theorem metrics_weighted_average_policy :
    (∀ n : Node,
       (calculateDynamicNodeMetrics n).averageKD = specAverageKD (subtreeKeywords n)
       ∧ (calculateDynamicNodeMetrics n).averageCPC = specAverageCPC (subtreeKeywords n))
    ∧ (calculateDynamicNodeMetrics clusterC3).averageKD = 50 := by
  constructor
  · intro n
    obtain ⟨hshape1, hshape2⟩ := calc_avg_shape n
    obtain ⟨p1, p2, p3, p4, p5, p6, p7, p8⟩ := calc_acc n
    constructor
    · rw [hshape1, p1, p2, p3, p4]
      simp [specAverageKD, zeroMetrics]
    · rw [hshape2, p5, p6, p7, p8]
      simp [specAverageCPC, zeroMetrics]
  · simp [calculateDynamicNodeMetrics, clusterC3, childrenMetricsFold, kwStep,
      finalizeAverages, zeroMetrics, NodeType.CLUSTER]
